import Mathlib

/-!
Verification development for the pose-refinement core of
`estimator_helpers.py` (NeRF-based camera pose estimation).

The Python source is shallowly embedded:

* machine floats are modelled by `Flt`: either an exact rational value or
  NaN; NaN propagates through arithmetic and makes every comparison false,
  as in IEEE-754.  Infinities and rounding are not modelled; division by
  zero yields NaN.
* external collaborators (the differentiable renderer, OpenCV colour
  conversions and dilation, the SIFT detector, `skimage` noise,
  `np.random.choice`, `torch`'s autograd/Adam step and trig functions) are
  explicit function parameters, gathered in `Collaborators`.
* the optimization loop of `Estimator.estimate_pose` is embedded as a fold
  over the iteration indices in an `Except` monad; Python exceptions
  (`IndexError`, broadcast `ValueError`, `UnboundLocalError`) and the
  silent `return` on an unknown sampling strategy become explicit
  outcomes, and the values printed by the loop become an explicit trace.
-/

namespace Nerf

/-- Model of a floating-point scalar: an exact rational, or NaN.
NaN propagates through arithmetic; comparisons with NaN are false. -/
inductive Flt where
  | fin : ℚ → Flt
  | nan : Flt
deriving DecidableEq

namespace Flt

/-- Addition; NaN absorbs. -/
def add : Flt → Flt → Flt
  | .fin a, .fin b => .fin (a + b)
  | _, _ => .nan

/-- Subtraction; NaN absorbs. -/
def sub : Flt → Flt → Flt
  | .fin a, .fin b => .fin (a - b)
  | _, _ => .nan

/-- Multiplication; NaN absorbs (IEEE: `0 * NaN = NaN`). -/
def mul : Flt → Flt → Flt
  | .fin a, .fin b => .fin (a * b)
  | _, _ => .nan

/-- Negation; NaN absorbs. -/
def neg : Flt → Flt
  | .fin a => .fin (-a)
  | .nan => .nan

/-- Division; NaN absorbs, and division by zero is modelled as NaN. -/
def div : Flt → Flt → Flt
  | .fin a, .fin b => if b = 0 then .nan else .fin (a / b)
  | _, _ => .nan

/-- Absolute value; NaN absorbs. -/
def abs : Flt → Flt
  | .fin a => .fin |a|
  | .nan => .nan

/-- Strict less-than as in IEEE: any comparison involving NaN is false. -/
def lt : Flt → Flt → Bool
  | .fin a, .fin b => decide (a < b)
  | _, _ => false

/-- Non-strict less-than as in IEEE: any comparison involving NaN is false. -/
def le : Flt → Flt → Bool
  | .fin a, .fin b => decide (a ≤ b)
  | _, _ => false

end Flt

instance : Add Flt := ⟨Flt.add⟩
instance : Sub Flt := ⟨Flt.sub⟩
instance : Mul Flt := ⟨Flt.mul⟩
instance : Neg Flt := ⟨Flt.neg⟩
instance : Div Flt := ⟨Flt.div⟩
instance (n : Nat) : OfNat Flt n := ⟨.fin n⟩

namespace Flt

@[simp] theorem fin_ofNat (n : ℕ) : (OfNat.ofNat n : Flt) = .fin n := rfl

@[simp] theorem add_fin (a b : ℚ) : (Flt.fin a) + (Flt.fin b) = .fin (a + b) := rfl

@[simp] theorem mul_fin (a b : ℚ) : (Flt.fin a) * (Flt.fin b) = .fin (a * b) := rfl

@[simp] theorem sub_fin (a b : ℚ) : (Flt.fin a) - (Flt.fin b) = .fin (a - b) := rfl

@[simp] theorem neg_fin (a : ℚ) : -(Flt.fin a) = .fin (-a) := rfl

@[simp] theorem abs_fin (a : ℚ) : (Flt.fin a).abs = .fin |a| := rfl

@[simp] theorem nan_add (a : Flt) : Flt.nan + a = .nan := by cases a <;> rfl

@[simp] theorem add_nan (a : Flt) : a + Flt.nan = .nan := by cases a <;> rfl

@[simp] theorem nan_sub (a : Flt) : Flt.nan - a = .nan := by cases a <;> rfl

@[simp] theorem sub_nan (a : Flt) : a - Flt.nan = .nan := by cases a <;> rfl

@[simp] theorem nan_mul (a : Flt) : Flt.nan * a = .nan := by cases a <;> rfl

@[simp] theorem mul_nan (a : Flt) : a * Flt.nan = .nan := by cases a <;> rfl

@[simp] theorem nan_div (a : Flt) : Flt.nan / a = .nan := by cases a <;> rfl

@[simp] theorem div_nan (a : Flt) : a / Flt.nan = .nan := by cases a <;> rfl

@[simp] theorem abs_nan : Flt.nan.abs = .nan := rfl

@[simp] theorem div_fin (a b : ℚ) (hb : b ≠ 0) :
    (Flt.fin a) / (Flt.fin b) = .fin (a / b) := by
  show Flt.div _ _ = _
  rw [Flt.div, if_neg hb]

@[simp] theorem lt_nan_left (a : Flt) : Flt.lt .nan a = false := by cases a <;> rfl

@[simp] theorem lt_nan_right (a : Flt) : Flt.lt a .nan = false := by cases a <;> rfl

@[simp] theorem le_nan_left (a : Flt) : Flt.le .nan a = false := by cases a <;> rfl

@[simp] theorem le_nan_right (a : Flt) : Flt.le a .nan = false := by cases a <;> rfl

/-- A model float is not NaN exactly when it carries a rational value. -/
theorem ne_nan_iff (a : Flt) : a ≠ .nan ↔ ∃ q : ℚ, a = .fin q := by
  cases a <;> simp

theorem one_mul_of_ne_nan (a : Flt) (h : a ≠ .nan) : (1 : Flt) * a = a := by
  obtain ⟨q, rfl⟩ := (ne_nan_iff a).mp h
  simp

theorem zero_mul_of_ne_nan (a : Flt) (h : a ≠ .nan) : (0 : Flt) * a = 0 := by
  obtain ⟨q, rfl⟩ := (ne_nan_iff a).mp h
  simp

theorem zero_add_of_ne_nan (a : Flt) (h : a ≠ .nan) : (0 : Flt) + a = a := by
  obtain ⟨q, rfl⟩ := (ne_nan_iff a).mp h
  simp

theorem add_zero_of_ne_nan (a : Flt) (h : a ≠ .nan) : a + (0 : Flt) = a := by
  obtain ⟨q, rfl⟩ := (ne_nan_iff a).mp h
  simp

end Flt

@[simp] theorem except_ok_bind {ε α β : Type} (a : α) (f : α → Except ε β) :
    (Except.ok a : Except ε α) >>= f = f a := rfl

@[simp] theorem except_error_bind {ε α β : Type} (e : ε) (f : α → Except ε β) :
    (Except.error e : Except ε α) >>= f = .error e := rfl

/-- 3×3 matrix of model floats. -/
abbrev M3 := Fin 3 → Fin 3 → Flt

/-- 4×4 matrix of model floats (homogeneous pose). -/
abbrev M4 := Fin 4 → Fin 4 → Flt

/-- The 3×3 identity (`torch.eye(3)`). -/
def eye3 : M3 := fun i j => if i = j then 1 else 0

/-- Entrywise sum of 3×3 matrices. -/
def madd3 (A B : M3) : M3 := fun i j => A i j + B i j

/-- Scalar multiple of a 3×3 matrix. -/
def smul3 (c : Flt) (A : M3) : M3 := fun i j => c * A i j

/-- 3×3 matrix product (`torch.matmul`), written as the explicit sum. -/
def mmul3 (A B : M3) : M3 := fun i j =>
  A i 0 * B 0 j + A i 1 * B 1 j + A i 2 * B 2 j

/-- 3×3 matrix applied to a 3-vector (`torch.matmul`). -/
def mvec3 (A : M3) (v : Fin 3 → Flt) : Fin 3 → Flt := fun i =>
  A i 0 * v 0 + A i 1 * v 1 + A i 2 * v 2

/-- 4×4 matrix product (`torch.matmul`), written as the explicit sum. -/
def mmul4 (A B : M4) : M4 := fun i j =>
  A i 0 * B 0 j + A i 1 * B 1 j + A i 2 * B 2 j + A i 3 * B 3 j

/-- Source lines 64-74: the skew-symmetric matrix of a 3-vector, built
from a zero matrix by six entry assignments. -/
def vec2ss_matrix (v : Fin 3 → Flt) : M3 := fun i j =>
  if i = 0 ∧ j = 1 then -(v 2)
  else if i = 0 ∧ j = 2 then v 1
  else if i = 1 ∧ j = 0 then v 2
  else if i = 1 ∧ j = 2 then -(v 0)
  else if i = 2 ∧ j = 0 then -(v 1)
  else if i = 2 ∧ j = 1 then v 0
  else 0

/-- The learnable twist of `camera_transf`: rotation generator `w`,
translation generator `v`, angle `theta` (source lines 80-82; the values
are drawn externally from `torch.normal(0., 1e-6)` and are inputs here). -/
structure Twist where
  w : Fin 3 → Flt
  v : Fin 3 → Flt
  theta : Flt

/-- The all-zeros twist. -/
def zeroTwist : Twist := ⟨fun _ => 0, fun _ => 0, 0⟩

/-- Source lines 84-92, `camera_transf.forward`, with `torch.sin` and
`torch.cos` supplied as collaborator functions on model floats.
Mirrors the source statement by statement: `exp_i` starts as the 4×4 zero
matrix; its top-left 3×3 block is set to
`I + sin(θ)·[w]× + (1−cos θ)·[w]×²`; its top-right column to
`(I·θ + (1−cos θ)·[w]× + (θ−sin θ)·[w]×²)·v`; entry (3,3) to 1; the result
is `exp_i @ x`.  (`v_skewsym` is computed and never used, as in the
source.) -/
def camera_forward (sinF cosF : Flt → Flt) (t : Twist) (x : M4) : M4 :=
  let w_skewsym := vec2ss_matrix t.w
  let _v_skewsym := vec2ss_matrix t.v
  let R : M3 :=
    madd3 (madd3 eye3 (smul3 (sinF t.theta) w_skewsym))
      (smul3 ((1 : Flt) - cosF t.theta) (mmul3 w_skewsym w_skewsym))
  let tr : Fin 3 → Flt :=
    mvec3
      (madd3 (madd3 (smul3 t.theta eye3) (smul3 ((1 : Flt) - cosF t.theta) w_skewsym))
        (smul3 (t.theta - sinF t.theta) (mmul3 w_skewsym w_skewsym))) t.v
  let exp_i : M4 := fun i j =>
    if hi : (i : ℕ) < 3 then
      if hj : (j : ℕ) < 3 then R ⟨i, hi⟩ ⟨j, hj⟩
      else tr ⟨i, hi⟩
    else if (j : ℕ) = 3 then 1 else 0
  mmul4 exp_i x

/-- The 4×4 exponential-map matrix as the specification words it
(spec section 4.4): rotation block `R = I + sin(θ)·[w]× + (1−cos θ)·[w]×²`,
translation block `t = (I·θ + (1−cos θ)·[w]× + (θ−sin θ)·[w]×²)·v`,
assembled as a homogeneous matrix with bottom row `[0,0,0,1]`. -/
def expSpec (sinF cosF : Flt → Flt) (t : Twist) : M4 :=
  let W := vec2ss_matrix t.w
  let R : M3 :=
    madd3 (madd3 eye3 (smul3 (sinF t.theta) W))
      (smul3 ((1 : Flt) - cosF t.theta) (mmul3 W W))
  let tl : Fin 3 → Flt :=
    mvec3
      (madd3 (madd3 (smul3 t.theta eye3) (smul3 ((1 : Flt) - cosF t.theta) W))
        (smul3 (t.theta - sinF t.theta) (mmul3 W W))) t.v
  fun i j =>
    if hi : (i : ℕ) = 3 then
      if (j : ℕ) = 3 then 1 else 0
    else
      if hj : (j : ℕ) = 3 then tl ⟨i, by have := i.isLt; omega⟩
      else R ⟨i, by have := i.isLt; omega⟩ ⟨j, by have := j.isLt; omega⟩

/-- The 4×4 identity matrix over model floats. -/
def eye4 : M4 := fun i j => if i = j then 1 else 0

theorem mmul4_eye4 (x : M4) (hx : ∀ i j, x i j ≠ Flt.nan) : mmul4 eye4 x = x := by
  funext i j
  obtain ⟨q0, h0⟩ := (Flt.ne_nan_iff _).mp (hx 0 j)
  obtain ⟨q1, h1⟩ := (Flt.ne_nan_iff _).mp (hx 1 j)
  obtain ⟨q2, h2⟩ := (Flt.ne_nan_iff _).mp (hx 2 j)
  obtain ⟨q3, h3⟩ := (Flt.ne_nan_iff _).mp (hx 3 j)
  fin_cases i <;> simp [mmul4, eye4, h0, h1, h2, h3]

theorem camera_forward_zeroTwist (sinF cosF : Flt → Flt) (x : M4)
    (hs : sinF 0 = 0) (hc : cosF 0 = 1) (hx : ∀ i j, x i j ≠ Flt.nan) :
    camera_forward sinF cosF zeroTwist x = x := by
  have hs' : sinF (Flt.fin 0) = Flt.fin 0 := by simpa using hs
  have hc' : cosF (Flt.fin 0) = Flt.fin 1 := by simpa using hc
  funext i j
  obtain ⟨q0, h0⟩ := (Flt.ne_nan_iff _).mp (hx 0 j)
  obtain ⟨q1, h1⟩ := (Flt.ne_nan_iff _).mp (hx 1 j)
  obtain ⟨q2, h2⟩ := (Flt.ne_nan_iff _).mp (hx 2 j)
  obtain ⟨q3, h3⟩ := (Flt.ne_nan_iff _).mp (hx 3 j)
  fin_cases i <;>
    simp [camera_forward, zeroTwist, vec2ss_matrix, madd3, smul3, mmul3, mvec3,
      eye3, mmul4, hs', hc', h0, h1, h2, h3,
      show ((0 : Fin 4) : ℕ) = 0 from rfl, show ((1 : Fin 4) : ℕ) = 1 from rfl,
      show ((2 : Fin 4) : ℕ) = 2 from rfl, show ((3 : Fin 4) : ℕ) = 3 from rfl]

/-- C5: the forward mapping of the pose parameterization builds `[w]×`,
computes the rotation block `I + sin(θ)·[w]× + (1−cos θ)·[w]×²` and the
translation block `(I·θ + (1−cos θ)·[w]× + (θ−sin θ)·[w]×²)·v`, assembles
the homogeneous 4×4 matrix with bottom row `[0,0,0,1]`, and left-multiplies
the supplied start pose; at the exactly-zero twist the matrix is the
identity and the composition reproduces the (NaN-free) start pose. -/
theorem C5_camera_forward_exponential_map (sinF cosF : Flt → Flt) (t : Twist) (x : M4)
    (hs : sinF 0 = 0) (hc : cosF 0 = 1) (hx : ∀ i j, x i j ≠ Flt.nan) :
    camera_forward sinF cosF t x = mmul4 (expSpec sinF cosF t) x
    ∧ (∀ j : Fin 4, expSpec sinF cosF t 3 j = if (j : ℕ) = 3 then 1 else 0)
    ∧ camera_forward sinF cosF zeroTwist x = x := by
  refine ⟨?_, ?_, camera_forward_zeroTwist sinF cosF x hs hc hx⟩
  · funext i j
    fin_cases i <;> fin_cases j <;> rfl
  · intro j
    rfl

/-- A stub for `torch.sin` agreeing with sine at 0. -/
def sinStub : Flt → Flt := fun _ => 0

/-- A stub for `torch.cos` agreeing with cosine at 0. -/
def cosStub : Flt → Flt := fun _ => 1

theorem C5_witness :
    sinStub 0 = 0 ∧ cosStub 0 = 1 ∧ (∀ i j, eye4 i j ≠ Flt.nan)
    ∧ camera_forward sinStub cosStub zeroTwist eye4 = eye4 :=
  ⟨rfl, rfl, by decide,
    (C5_camera_forward_exponential_map sinStub cosStub zeroTwist eye4 rfl rfl (by decide)).2.2⟩

/-- Source lines 302-304: the per-axis angular error with circular
wraparound used by the convergence diagnostics. -/
def angular_error (ref cur : Flt) : Flt :=
  if Flt.lt (Flt.abs (ref - cur)) 300 then Flt.abs (ref - cur)
  else Flt.abs (Flt.abs (ref - cur) - 360)

/-- C8: the diagnostic angular error is `|ref − cur|` when that value is
below 300 and `||ref − cur| − 360|` when it is at least 300; in particular
reference 170° and current −170° give 20°, not 340°. -/
theorem C8_angular_error_wrap (ref cur : ℚ) :
    (|ref - cur| < 300 → angular_error (.fin ref) (.fin cur) = .fin |ref - cur|)
    ∧ (300 ≤ |ref - cur| → angular_error (.fin ref) (.fin cur) = .fin (|(|ref - cur|) - 360|))
    ∧ angular_error (.fin 170) (.fin (-170)) = .fin 20
    ∧ angular_error (.fin 170) (.fin (-170)) ≠ .fin 340 := by
  have h1 : Flt.abs (Flt.fin 170 - Flt.fin (-170)) = Flt.fin 340 := by norm_num
  refine ⟨?_, ?_, ?_, ?_⟩
  · intro h
    simp [angular_error, Flt.lt, h]
  · intro h
    simp [angular_error, Flt.lt, not_lt.mpr h]
  · simp only [angular_error, h1, Flt.fin_ofNat, Flt.lt, decide_eq_true_eq]
    norm_num
  · simp only [angular_error, h1, Flt.fin_ofNat, Flt.lt, decide_eq_true_eq]
    norm_num

theorem C8_witness :
    (300 : ℚ) ≤ |(170 : ℚ) - (-170)|
    ∧ angular_error (.fin 170) (.fin (-170)) = .fin (|(|(170 : ℚ) - (-170)|) - 360|) :=
  ⟨by norm_num, (C8_angular_error_wrap 170 (-170)).2.1 (by norm_num)⟩

/-- Module global `TEST = False` (source line 10); the two-stage
fine-sampling branch (lines 224-271) is statically dead under it and is
therefore not part of the embedded loop body. -/
def TEST : Bool := false

/-- Module global `N = 1` (source line 16): the resample interval. -/
def N : Nat := 1

/-- Module global `l = 1` (source line 14): weight of the photometric
loss (named `lConst` here to keep `l` free for list variables). -/
def lConst : Flt := 1

/-- The float value of `np.pi` used by the diagnostics. -/
def np_pi : Flt := .fin (3.141592653589793 : ℚ)

/-- A pixel coordinate `(x, y)` as a pair of machine integers. -/
abbrev Coord := Int × Int

/-- An RGB image: pixel coordinate to three channel values.  numpy's
`img[y, x]` indexing is the value of the model image at pixel `(x, y)`. -/
abbrev Image := Coord → Fin 3 → Flt

/-- A grayscale image. -/
abbrev GrayImage := Coord → Flt

/-- `torch.mean` over the scalars of a tensor; the mean of an empty tensor
is NaN. -/
def fltMean (xs : List Flt) : Flt :=
  if xs.length = 0 then .nan else xs.foldl (· + ·) 0 / .fin (xs.length : ℚ)

/-- Source line 36: `img2mse = lambda x, y: torch.mean((x - y) ** 2)` on
N×3 colour tensors. -/
def img2mse (x y : List (Fin 3 → Flt)) : Flt :=
  fltMean ((x.zip y).flatMap fun p =>
    [(p.1 0 - p.2 0) * (p.1 0 - p.2 0),
     (p.1 1 - p.2 1) * (p.1 1 - p.2 1),
     (p.1 2 - p.2 2) * (p.1 2 - p.2 2)])

/-- Source line 38: `depth2mse = lambda x, y, z: torch.mean((x - y) ** 2)`
(the third argument is unused in the source as well). -/
def depth2mse (x y : List Flt) (_z : List Flt) : Flt :=
  fltMean ((x.zip y).map fun p => (p.1 - p.2) * (p.1 - p.2))

/-- Pixelwise `img / 255.` (source lines 118 and 122). -/
def imgDiv255 (img : Image) : Image := fun p ch => img p ch / (255 : Flt)

/-- Source lines 124-130: the asymmetric clamp-then-add brightness shift on
the value channel (channel 2) of an HSV image.  The two sequential masked
assignments of the source are equivalent to this per-entry conditional:
entries first moved to the clamp value never satisfy the second mask, and
NaN entries satisfy neither mask. -/
def clampV (delta : Flt) (hsv : Image) : Image := fun p ch =>
  if ch = 2 then
    let v := hsv p 2
    if Flt.lt delta 0 then
      if Flt.lt v (Flt.abs delta) then 0
      else if Flt.le (Flt.abs delta) v then v + delta else v
    else
      let lim := (1 : Flt) - delta
      if Flt.lt lim v then 1
      else if Flt.le v lim then v + delta else v
  else hsv p ch

/-- Source lines 121-131: the brightness shift.  The `cv2.cvtColor`
conversions are the collaborators `rgb2hsv`/`hsv2rgb`; note that the
source divides the already-normalized image by 255 once more (line 122)
before converting to HSV. -/
def apply_brightness (rgb2hsv hsv2rgb : Image → Image) (delta : Flt) (img : Image) : Image :=
  hsv2rgb (clampV delta (rgb2hsv (imgDiv255 img)))

/-- Source lines 134-145: the noise dispatch.  `skimage.util.random_noise`
is the external stochastic collaborator `noiseFn` (mode, parameter, image);
an unrecognized or absent noise setting leaves the image unchanged. -/
def apply_noise (noiseFn : String → Flt → Image → Image) (noise : Option String)
    (sigma amount : Flt) (img : Image) : Image :=
  if noise = some "gaussian" then noiseFn "gaussian" (sigma * sigma) img
  else if noise = some "s_and_p" then noiseFn "s&p" amount img
  else if noise = some "pepper" then noiseFn "pepper" amount img
  else if noise = some "salt" then noiseFn "salt" amount img
  else if noise = some "poisson" then noiseFn "poisson" 0 img
  else img

/-- `astype(int)` on a float scalar: truncation toward zero (NaN mapped to
0; detector keypoints are finite in practice). -/
def npTruncInt : Flt → Int
  | .fin q => Int.tdiv q.num (q.den : Int)
  | .nan => 0

/-- `(img * 255).astype(np.uint8)` on one scalar: truncate toward zero and
wrap modulo 256 (NaN mapped to 0). -/
def fltToUint8 (x : Flt) : Flt :=
  match x with
  | .fin q => .fin (((Int.tdiv q.num (q.den : Int)) % 256 : Int) : ℚ)
  | .nan => .fin 0

/-- Source line 147: rescale the noised float image to 8-bit for the
detector. -/
def imgToUint8 (img : Image) : Image := fun p ch => fltToUint8 (img p ch * (255 : Flt))

/-- Source lines 23-34, `find_POI`: grayscale conversion and SIFT detection
are external collaborators; keypoint coordinates are truncated to integer
pixels and deduplicated with set semantics (the Python set's iteration
order is modelled by `List.dedup`; no claim observes the order). -/
def find_POI (cvtGray : Image → GrayImage) (siftDetect : GrayImage → List (Flt × Flt))
    (img : Image) : List Coord :=
  let keypoints := siftDetect (cvtGray img)
  let xy := keypoints.map fun p => ((npTruncInt p.1, npTruncInt p.2) : Coord)
  xy.dedup

/-- Source lines 113-114 and 165: the full pixel grid `self.coords`,
reshaped to `(H*W, 2)` in row-major order; entry `y*W + x` is `(x, y)`. -/
def coordsGrid (W H : Nat) : List Coord :=
  (List.range H).flatMap fun (y : Nat) => (List.range W).map fun (x : Nat) => ((x : Int), (y : Int))

/-- Python exceptions that the embedded code can raise. -/
inductive PyError where
  | indexError
  | valueError
  | unboundLocalError
deriving DecidableEq

/-- One entry of the loop's console output (source lines 289-309):
either the per-20-iterations diagnostic record (step index, loss, rotation
error, translation error) or the `Unknown sampling strategy` message of
line 205. -/
inductive LogEntry where
  | step (k : Nat) (loss rot_error translation_error : Flt)
  | unknownStrategyMsg
deriving DecidableEq

/-- The observable outcome of a call to `estimate_pose`: a returned pose,
Python's implicit `None` from the bare `return` of line 206, or an
uncaught exception. -/
inductive EstimateResult where
  | ok (pose : M4)
  | silentNone
  | error (e : PyError)
deriving DecidableEq

/-- The model of `np.random.choice(n, size=k, replace=False)` (source
lines 187, 192, 197, 201): the external RNG collaborator `choice` supplies
the drawn indices for resample event `ev`; requesting more samples than
the population size raises `ValueError`. -/
def npChoice (choice : Nat → Nat → Nat → List Nat) (ev n k : Nat) :
    Except PyError (List Nat) :=
  if n < k then .error .valueError else .ok (choice ev n k)

/-- Source lines 186-206: the per-resample batch draw for the active
sampling strategy.

* `random`: `batch_size` indices without replacement into the full grid.
* `interest_points`: if `|POI| ≥ batch_size`, indices into POI only;
  otherwise the batch is POI followed by indices into `not_POI`.  When POI
  is empty its numpy array is 1-dimensional (shape `(0,)`), and the
  assignment `batch[:0] = POI` raises a broadcast `ValueError`.
* `interest_regions`: indices into the dilated-region pixel list.
* anything else: the `print`-and-`return` branch of lines 204-206. -/
def drawBatch (choice : Nat → Nat → Nat → List Nat) (strat : String) (bs : Nat) (k : Nat)
    (coords POIl not_POIl iRegions : List Coord) : Except (Option PyError) (List Coord) :=
  if strat = "random" then
    match npChoice choice k coords.length bs with
    | .error e => .error (some e)
    | .ok inds => .ok (inds.map fun i => coords.getD i ((0 : Int), (0 : Int)))
  else if strat = "interest_points" then
    if POIl.length ≥ bs then
      match npChoice choice k POIl.length bs with
      | .error e => .error (some e)
      | .ok inds => .ok (inds.map fun i => POIl.getD i ((0 : Int), (0 : Int)))
    else if POIl.isEmpty then
      .error (some .valueError)
    else
      match npChoice choice k not_POIl.length (bs - POIl.length) with
      | .error e => .error (some e)
      | .ok inds => .ok (POIl ++ inds.map fun i => not_POIl.getD i ((0 : Int), (0 : Int)))
  else if strat = "interest_regions" then
    match npChoice choice k iRegions.length bs with
    | .error e => .error (some e)
    | .ok inds => .ok (inds.map fun i => iRegions.getD i ((0 : Int), (0 : Int)))
  else
    .error none

/-- The external collaborators of the estimator, as explicit functions.
`σ` is the private state of the torch optimizer (Adam moments, learning
rate, step counter).

* `hwf` — `renderer.hwf` as `(W, H, focal)` (read in `__init__`, line 112).
* `render` — `renderer.get_img_from_pix(batch, pose, HW=False,
  NeedDepth=True)`: predicted colours and `(depth mean, depth variance)`.
* `noiseFn` — `skimage.util.random_noise` (mode, parameter, image), with
  its randomness fixed by the ambient seed.
* `cvtGray`, `siftDetect` — `cv2.cvtColor(..., COLOR_RGB2GRAY)` and SIFT.
* `rgb2hsv`, `hsv2rgb` — `cv2.cvtColor` to and from HSV.
* `dilate` — `cv2.dilate` with a square all-ones kernel of the given size,
  iterated the given number of times, as a transformer of boolean masks.
* `choice` — the index lists produced by `np.random.choice(n, size,
  replace=False)` at each resample event, fixed by the ambient seed.
* `atan2F`, `sqrtF`, `sinF`, `cosF`, `powF` — `np.arctan2`, `np.sqrt`,
  `torch.sin`, `torch.cos` and float `**`.
* `optStep` — `loss.backward()` followed by `optimizer.step()` (lines
  282-283): new optimizer state and updated twist.
* `setLr` — the parameter-group learning-rate assignment of lines 286-287. -/
structure Collaborators (σ : Type) where
  hwf : Nat × Nat × Flt
  render : List Coord → M4 → List (Fin 3 → Flt) × (List Flt × List Flt)
  noiseFn : String → Flt → Image → Image
  cvtGray : Image → GrayImage
  siftDetect : GrayImage → List (Flt × Flt)
  rgb2hsv : Image → Image
  hsv2rgb : Image → Image
  dilate : Nat → Nat → (Coord → Bool) → Coord → Bool
  choice : Nat → Nat → Nat → List Nat
  atan2F : Flt → Flt → Flt
  sqrtF : Flt → Flt
  sinF : Flt → Flt
  cosF : Flt → Flt
  powF : Flt → Flt → Flt
  optStep : σ → Twist → Flt → σ × Twist
  setLr : σ → Flt → σ

/-- The configuration stored by `Estimator.__init__` (source lines
95-109). -/
structure Estimator where
  iter : Nat
  batch_size : Nat
  sampling_strategy : String
  dil_iter : Nat
  kernel_size : Nat
  lrate : Flt
  noise : Option String
  sigma : Flt
  amount : Flt
  delta_brightness : Flt

/-- `phi = np.arctan2(p[1,0], p[0,0]) * 180 / np.pi`
(source lines 177 and 296). -/
def decompPhi (atan2F : Flt → Flt → Flt) (p : M4) : Flt :=
  atan2F (p 1 0) (p 0 0) * (180 : Flt) / np_pi

/-- `theta = np.arctan2(-p[2,0], sqrt(p[2,1]^2 + p[2,2]^2)) * 180 / np.pi`
(source lines 178 and 297). -/
def decompTheta (atan2F : Flt → Flt → Flt) (sqrtF : Flt → Flt) (p : M4) : Flt :=
  atan2F (-(p 2 0)) (sqrtF (p 2 1 * p 2 1 + p 2 2 * p 2 2)) * (180 : Flt) / np_pi

/-- `psi = np.arctan2(p[2,1], p[2,2]) * 180 / np.pi`
(source lines 179 and 298). -/
def decompPsi (atan2F : Flt → Flt → Flt) (p : M4) : Flt :=
  atan2F (p 2 1) (p 2 2) * (180 : Flt) / np_pi

/-- `translation = sqrt(p[0,3]^2 + p[1,3]^2 + p[2,3]^2)`
(source lines 180 and 299). -/
def decompTranslation (sqrtF : Flt → Flt) (p : M4) : Flt :=
  sqrtF (p 0 3 * p 0 3 + p 1 3 * p 1 3 + p 2 3 * p 2 3)

/-- The diagnostic record printed at source lines 289-309, built from the
reference decomposition `(phi_ref, theta_ref, psi_ref, translation_ref)`
and the current pose. -/
def mkLog (atan2F : Flt → Flt → Flt) (sqrtF : Flt → Flt)
    (refs : Flt × Flt × Flt × Flt) (k : Nat) (loss : Flt) (pose : M4) : LogEntry :=
  let phi := decompPhi atan2F pose
  let theta := decompTheta atan2F sqrtF pose
  let psi := decompPsi atan2F pose
  let translation := decompTranslation sqrtF pose
  .step k loss
    (angular_error refs.1 phi + angular_error refs.2.1 theta + angular_error refs.2.2.1 psi)
    (Flt.abs (refs.2.2.2 - translation))

/-- The loop-local state of the iteration of source lines 182-318:
optimizer state, twist parameters, the current `batch` and `pose` local
variables (absent until first assigned, as in Python), and the console
trace so far. -/
structure LoopState (σ : Type) where
  opt : σ
  twist : Twist
  batch : Option (List Coord)
  pose : Option M4
  trace : List LogEntry

/-- One iteration of the loop of source lines 182-318 (with `TEST = False`,
so the dead fine-sampling branch of lines 224-271 is omitted).  An
`Except.error` carries the final observable result of the whole call
(early exit via the bare `return` of line 206 or an uncaught exception). -/
def loopBody {σ : Type} (self : Estimator) (C : Collaborators σ) (start_pose : M4)
    (obs_img_noised : Image) (obs_img_depth : Coord → Flt)
    (coords POIl not_POIl iRegions : List Coord)
    (refs : Flt × Flt × Flt × Flt)
    (st : LoopState σ) (k : Nat) :
    Except (EstimateResult × Option M4 × List LogEntry) (LoopState σ) :=
  let batchResolved : Except (EstimateResult × Option M4 × List LogEntry) (Option (List Coord)) :=
    if k % N = 0 then
      match drawBatch C.choice self.sampling_strategy self.batch_size k coords POIl not_POIl iRegions with
      | .ok b => .ok (some b)
      | .error none => .error (.silentNone, none, st.trace ++ [.unknownStrategyMsg])
      | .error (some e) => .error (.error e, none, st.trace)
    else .ok st.batch
  match batchResolved with
  | .error out => .error out
  | .ok none => .error (.error .unboundLocalError, none, st.trace)
  | .ok (some batch) =>
    let target_s := batch.map obs_img_noised
    let depth_s := batch.map obs_img_depth
    let pose := camera_forward C.sinF C.cosF st.twist start_pose
    let rd := C.render batch pose
    let rgb := rd.1
    let depth_val := rd.2.1
    let depth_var := rd.2.2
    let loss_rgb := img2mse rgb target_s
    let loss_depth := depth2mse depth_val depth_s depth_var
    let loss := lConst * loss_rgb + loss_depth
    let stepped := C.optStep st.opt st.twist loss
    let new_lrate := self.lrate * C.powF (.fin (0.8 : ℚ)) (.fin (((k : ℚ) + 1) / 100))
    let opt2 := C.setLr stepped.1 new_lrate
    let trace2 :=
      if (k + 1) % 20 = 0 ∨ k = 0 then st.trace ++ [mkLog C.atan2F C.sqrtF refs k loss pose]
      else st.trace
    .ok ⟨opt2, stepped.2, some batch, some pose, trace2⟩

/-- Source line 118 (the initial `[0,1]` normalization) followed by lines
121-131 (the brightness shift, which divides by 255 a second time). -/
def Estimator.obs_preprocessed {σ : Type} (self : Estimator) (C : Collaborators σ)
    (obs_img : Image) : Image :=
  let o1 := imgDiv255 obs_img
  if self.delta_brightness ≠ 0 then
    apply_brightness C.rgb2hsv C.hsv2rgb self.delta_brightness o1
  else o1

/-- Source lines 134-145: the noised observation used as the photometric
supervision target. -/
def Estimator.obs_noised {σ : Type} (self : Estimator) (C : Collaborators σ)
    (obs_img : Image) : Image :=
  apply_noise C.noiseFn self.noise self.sigma self.amount (self.obs_preprocessed C obs_img)

/-- Source line 147: the 8-bit detector input. -/
def Estimator.obs_noised_POI_img {σ : Type} (self : Estimator) (C : Collaborators σ)
    (obs_img : Image) : Image :=
  imgToUint8 (self.obs_noised C obs_img)

/-- Source line 151: the POI set the detector produces for this call. -/
def Estimator.poiOf {σ : Type} (self : Estimator) (C : Collaborators σ)
    (obs_img : Image) : List Coord :=
  find_POI C.cvtGray C.siftDetect (self.obs_noised_POI_img C obs_img)

/-- Source lines 116-323, `Estimator.estimate_pose`.  Returns the
observable outcome, the cached `self.pose_prior` (set only on normal
completion, line 321), and the console trace.

Pre-loop stages in source order: normalization and brightness shift, noise,
8-bit rescale, POI detection (only under the two POI strategies),
interest-region mask construction (empty POI makes the numpy POI array
1-dimensional, so `POI[:,1]` raises `IndexError`), the `not_POI`
set difference (modelled in grid order), the reference-pose decomposition,
then the iteration fold.  After the loop, `pose` is unbound if no
iteration ran (`UnboundLocalError` at line 321). -/
def Estimator.POI_of {σ : Type} (self : Estimator) (C : Collaborators σ) (obs_img : Image) :
    List Coord :=
  if self.sampling_strategy = "interest_regions" ∨ self.sampling_strategy = "interest_points"
  then self.poiOf C obs_img else []

/-- Source lines 155-162: the interest-region pixel list.  An empty POI
set makes the numpy POI array 1-dimensional, so `POI[:,1]` raises
`IndexError`; otherwise the POI mask is dilated (`cv2.dilate`
collaborator) and `self.coords[mask]` lists the mask-true grid pixels in
row-major order. -/
def Estimator.interestRegions_of {σ : Type} (self : Estimator) (C : Collaborators σ)
    (obs_img : Image) : Except PyError (List Coord) :=
  if self.sampling_strategy = "interest_regions" then
    if (self.POI_of C obs_img).isEmpty then .error .indexError
    else
      .ok ((coordsGrid C.hwf.1 C.hwf.2.1).filter
        (C.dilate self.kernel_size self.dil_iter fun c => (self.POI_of C obs_img).contains c))
  else .ok []

/-- Source lines 164-169: `not_POI`, the grid minus the POI set (the
Python set difference is modelled in grid order; only membership is
observable). -/
def Estimator.notPOI_of {σ : Type} (self : Estimator) (C : Collaborators σ) (obs_img : Image) :
    List Coord :=
  if self.sampling_strategy = "interest_points"
  then (coordsGrid C.hwf.1 C.hwf.2.1).filter fun c => !((self.POI_of C obs_img).contains c)
  else []

/-- Source lines 177-180: the reference-pose decomposition (diagnostics
only). -/
def refs_of {σ : Type} (C : Collaborators σ) (obs_img_pose : M4) : Flt × Flt × Flt × Flt :=
  (decompPhi C.atan2F obs_img_pose, decompTheta C.atan2F C.sqrtF obs_img_pose,
   decompPsi C.atan2F obs_img_pose, decompTranslation C.sqrtF obs_img_pose)

def Estimator.estimate_pose {σ : Type} (self : Estimator) (C : Collaborators σ) (s0 : σ)
    (initTwist : Twist) (start_pose : M4) (obs_img : Image) (obs_img_pose : M4)
    (obs_img_depth : Coord → Flt) : EstimateResult × Option M4 × List LogEntry :=
  match self.interestRegions_of C obs_img with
  | .error e => (.error e, none, [])
  | .ok iRegions =>
    match (List.range self.iter).foldlM
        (loopBody self C start_pose (self.obs_noised C obs_img) obs_img_depth
          (coordsGrid C.hwf.1 C.hwf.2.1) (self.POI_of C obs_img) (self.notPOI_of C obs_img)
          iRegions (refs_of C obs_img_pose))
        (⟨s0, initTwist, none, none, []⟩ : LoopState σ) with
    | .error out => out
    | .ok st =>
      match st.pose with
      | none => (.error .unboundLocalError, none, st.trace)
      | some p => (.ok p, some p, st.trace)

theorem POI_of_ir {σ : Type} (self : Estimator) (C : Collaborators σ) (oi : Image)
    (hs : self.sampling_strategy = "interest_regions") :
    self.POI_of C oi = self.poiOf C oi := by
  unfold Estimator.POI_of
  rw [if_pos (Or.inl hs)]

theorem POI_of_ip {σ : Type} (self : Estimator) (C : Collaborators σ) (oi : Image)
    (hs : self.sampling_strategy = "interest_points") :
    self.POI_of C oi = self.poiOf C oi := by
  unfold Estimator.POI_of
  rw [if_pos (Or.inr hs)]

theorem interestRegions_of_neg {σ : Type} (self : Estimator) (C : Collaborators σ) (oi : Image)
    (hs : self.sampling_strategy ≠ "interest_regions") :
    self.interestRegions_of C oi = .ok [] := by
  unfold Estimator.interestRegions_of
  rw [if_neg hs]

theorem interestRegions_of_emptyPOI {σ : Type} (self : Estimator) (C : Collaborators σ)
    (oi : Image) (hs : self.sampling_strategy = "interest_regions")
    (hp : self.poiOf C oi = []) :
    self.interestRegions_of C oi = .error .indexError := by
  unfold Estimator.interestRegions_of
  rw [if_pos hs, POI_of_ir self C oi hs, hp,
    if_pos (show (([] : List Coord)).isEmpty = true from rfl)]

theorem interestRegions_of_cons {σ : Type} (self : Estimator) (C : Collaborators σ)
    (oi : Image) (hs : self.sampling_strategy = "interest_regions")
    (a : Coord) (t : List Coord) (hp : self.poiOf C oi = a :: t) :
    ∃ l, self.interestRegions_of C oi = .ok l := by
  unfold Estimator.interestRegions_of
  rw [if_pos hs, POI_of_ir self C oi hs, hp,
    if_neg (show ¬((a :: t).isEmpty = true) by simp)]
  exact ⟨_, rfl⟩

/-- Membership of an in-bounds `getD` access. -/
theorem getD_mem {α : Type} (l : List α) (i : Nat) (d : α) (h : i < l.length) :
    l.getD i d ∈ l := by
  rw [List.getD_eq_getElem?_getD, List.getElem?_eq_getElem h]
  exact List.getElem_mem h

/-- The elements selected from `l` at the indices `inds` all belong to
`l`, provided the indices are in bounds. -/
theorem pick_mem {α : Type} (l : List α) (inds : List Nat) (d : α)
    (hb : ∀ i ∈ inds, i < l.length) :
    ∀ c ∈ inds.map fun i => l.getD i d, c ∈ l := by
  intro c hc
  obtain ⟨i, hi, rfl⟩ := List.mem_map.mp hc
  exact getD_mem l i d (hb i hi)

/-- Selecting along duplicate-free in-bounds indices from a duplicate-free
list yields a duplicate-free selection. -/
theorem pick_nodup {α : Type} (l : List α) (hl : l.Nodup) (inds : List Nat)
    (hn : inds.Nodup) (hb : ∀ i ∈ inds, i < l.length) (d : α) :
    (inds.map fun i => l.getD i d).Nodup := by
  refine List.Nodup.map_on ?_ hn
  intro i hi j hj hij
  have hi' := hb i hi
  have hj' := hb j hj
  rw [List.getD_eq_getElem?_getD, List.getElem?_eq_getElem hi',
    List.getD_eq_getElem?_getD, List.getElem?_eq_getElem hj'] at hij
  exact (List.Nodup.getElem_inj_iff hl).mp hij

theorem mem_coordsGrid (W H : Nat) (a b : Int) :
    ((a, b) : Coord) ∈ coordsGrid W H ↔ 0 ≤ a ∧ a < (W : Int) ∧ 0 ≤ b ∧ b < (H : Int) := by
  unfold coordsGrid
  rw [List.mem_flatMap]
  constructor
  · rintro ⟨y, hy, hmem⟩
    obtain ⟨x, hx, heq⟩ := List.mem_map.mp hmem
    have hy' := List.mem_range.mp hy
    have hx' := List.mem_range.mp hx
    have h1 : (x : Int) = a := congrArg Prod.fst heq
    have h2 : (y : Int) = b := congrArg Prod.snd heq
    omega
  · rintro ⟨h0, h1, h2, h3⟩
    refine ⟨b.toNat, List.mem_range.mpr (by omega),
      List.mem_map.mpr ⟨a.toNat, List.mem_range.mpr (by omega), ?_⟩⟩
    rw [Int.toNat_of_nonneg h0, Int.toNat_of_nonneg h2]

theorem coordsGrid_succ (W n : Nat) :
    coordsGrid W (n + 1)
      = coordsGrid W n ++ (List.range W).map (fun (x : Nat) => (((x : Int), (n : Int)) : Coord)) := by
  unfold coordsGrid
  rw [List.range_succ, List.flatMap_append, List.flatMap_cons, List.flatMap_nil, List.append_nil]

theorem length_coordsGrid (W H : Nat) : (coordsGrid W H).length = H * W := by
  induction H with
  | zero => simp [coordsGrid]
  | succ n ih =>
    rw [coordsGrid_succ, List.length_append, ih, List.length_map, List.length_range]
    ring

theorem nodup_coordsGrid (W H : Nat) : (coordsGrid W H).Nodup := by
  unfold coordsGrid
  refine List.nodup_flatMap.mpr ⟨?_, ?_⟩
  · intro y _
    refine List.Nodup.map ?_ (List.nodup_range W)
    intro a b hab
    have := congrArg Prod.fst hab
    simpa using this
  · refine List.Pairwise.imp ?_ (List.nodup_range H)
    intro y z hyz c hcy hcz
    obtain ⟨x1, _, h1⟩ := List.mem_map.mp hcy
    obtain ⟨x2, _, h2⟩ := List.mem_map.mp hcz
    have e1 := congrArg Prod.snd h1
    have e2 := congrArg Prod.snd h2
    simp only at e1 e2
    apply hyz
    omega

theorem npChoice_ok (choice : Nat → Nat → Nat → List Nat) (ev n s : Nat) (h : s ≤ n) :
    npChoice choice ev n s = .ok (choice ev n s) := by
  unfold npChoice
  rw [if_neg (by omega)]

/-- The default coordinate used by the embedding of numpy fancy indexing. -/
def cZero : Coord := ((0 : Int), (0 : Int))

theorem drawBatch_random_eq (choice : Nat → Nat → Nat → List Nat) (bs k : Nat)
    (coords POIl not_POIl iRegions : List Coord) (h : bs ≤ coords.length) :
    drawBatch choice "random" bs k coords POIl not_POIl iRegions
      = .ok ((choice k coords.length bs).map fun i => coords.getD i cZero) := by
  unfold drawBatch
  rw [if_pos rfl, npChoice_ok choice k coords.length bs h]
  rfl

theorem drawBatch_ip_ge_eq (choice : Nat → Nat → Nat → List Nat) (bs k : Nat)
    (coords POIl not_POIl iRegions : List Coord) (h : bs ≤ POIl.length) :
    drawBatch choice "interest_points" bs k coords POIl not_POIl iRegions
      = .ok ((choice k POIl.length bs).map fun i => POIl.getD i cZero) := by
  unfold drawBatch
  rw [if_neg (by decide), if_pos rfl, if_pos h, npChoice_ok choice k POIl.length bs h]
  rfl

theorem drawBatch_ip_lt_eq (choice : Nat → Nat → Nat → List Nat) (bs k : Nat)
    (coords POIl not_POIl iRegions : List Coord) (hlt : POIl.length < bs)
    (hne : POIl ≠ []) (hle : bs - POIl.length ≤ not_POIl.length) :
    drawBatch choice "interest_points" bs k coords POIl not_POIl iRegions
      = .ok (POIl ++ (choice k not_POIl.length (bs - POIl.length)).map fun i => not_POIl.getD i cZero) := by
  unfold drawBatch
  rw [if_neg (by decide), if_pos rfl, if_neg (by omega), if_neg (by simp [hne]),
    npChoice_ok choice k not_POIl.length (bs - POIl.length) hle]
  rfl

theorem drawBatch_ir_eq (choice : Nat → Nat → Nat → List Nat) (bs k : Nat)
    (coords POIl not_POIl iRegions : List Coord) (h : bs ≤ iRegions.length) :
    drawBatch choice "interest_regions" bs k coords POIl not_POIl iRegions
      = .ok ((choice k iRegions.length bs).map fun i => iRegions.getD i cZero) := by
  unfold drawBatch
  rw [if_neg (by decide), if_neg (by decide), if_pos rfl,
    npChoice_ok choice k iRegions.length bs h]
  rfl

theorem drawBatch_unknown_eq (choice : Nat → Nat → Nat → List Nat) (strat : String)
    (bs k : Nat) (coords POIl not_POIl iRegions : List Coord)
    (h1 : strat ≠ "random") (h2 : strat ≠ "interest_points") (h3 : strat ≠ "interest_regions") :
    drawBatch choice strat bs k coords POIl not_POIl iRegions = .error none := by
  unfold drawBatch
  rw [if_neg h1, if_neg h2, if_neg h3]

/-- The contract of `np.random.choice(n, size, replace=False)`: when the
request is satisfiable the drawn index list has the requested size, has no
duplicates, and indexes into the population. -/
def ChoiceContract (choice : Nat → Nat → Nat → List Nat) : Prop :=
  ∀ ev n s, s ≤ n →
    (choice ev n s).length = s ∧ (choice ev n s).Nodup ∧ ∀ i ∈ choice ev n s, i < n

/-- C6: under the `interest_points` strategy, a resample event with
`|POI| ≥ batch_size` draws the batch without replacement from POI only;
otherwise the batch's first `|POI|` entries are exactly the POI list and
the remaining `batch_size − |POI|` entries are drawn without replacement
from `not_POI`, hence disjoint from POI; in both cases the batch has
exactly `batch_size` rows. -/
theorem C6_interest_points_batch (choice : Nat → Nat → Nat → List Nat)
    (bs k : Nat) (coords POIl not_POIl iRegions : List Coord)
    (hPOI : POIl.Nodup) (hnp : not_POIl.Nodup)
    (hdisj : ∀ c ∈ not_POIl, c ∉ POIl)
    (hch : ChoiceContract choice) :
    (bs ≤ POIl.length →
      ∃ b, drawBatch choice "interest_points" bs k coords POIl not_POIl iRegions = .ok b
        ∧ b.length = bs ∧ (∀ c ∈ b, c ∈ POIl) ∧ b.Nodup)
    ∧ (POIl.length < bs → POIl ≠ [] → bs - POIl.length ≤ not_POIl.length →
      ∃ b, drawBatch choice "interest_points" bs k coords POIl not_POIl iRegions = .ok b
        ∧ b.length = bs ∧ b.take POIl.length = POIl
        ∧ (∀ c ∈ b.drop POIl.length, c ∈ not_POIl ∧ c ∉ POIl)
        ∧ (b.drop POIl.length).Nodup) := by
  constructor
  · intro hge
    obtain ⟨hlen, hnodup, hbound⟩ := hch k POIl.length bs hge
    refine ⟨_, drawBatch_ip_ge_eq choice bs k coords POIl not_POIl iRegions hge, ?_, ?_, ?_⟩
    · rw [List.length_map, hlen]
    · exact pick_mem POIl _ cZero hbound
    · exact pick_nodup POIl hPOI _ hnodup hbound cZero
  · intro hlt hne hle
    obtain ⟨hlen, hnodup, hbound⟩ := hch k not_POIl.length (bs - POIl.length) hle
    refine ⟨_, drawBatch_ip_lt_eq choice bs k coords POIl not_POIl iRegions hlt hne hle, ?_, ?_, ?_, ?_⟩
    · rw [List.length_append, List.length_map, hlen]
      omega
    · rw [List.take_left]
    · rw [List.drop_left]
      intro c hc
      have hmem := pick_mem not_POIl _ cZero hbound c hc
      exact ⟨hmem, hdisj c hmem⟩
    · rw [List.drop_left]
      exact pick_nodup not_POIl hnp _ hnodup hbound cZero

theorem C6_witness :
    ∃ b, drawBatch (fun _ _ s => List.range s) "interest_points" 2 0 []
        [((0 : Int), (0 : Int))] [((1 : Int), (0 : Int))] [] = .ok b
      ∧ b.length = 2 ∧ b.take 1 = [((0 : Int), (0 : Int))]
      ∧ (∀ c ∈ b.drop 1, c ∈ [((1 : Int), (0 : Int))] ∧ c ∉ [((0 : Int), (0 : Int))])
      ∧ (b.drop 1).Nodup := by
  have hch : ChoiceContract (fun _ _ s => List.range s) := by
    intro ev n s hs
    refine ⟨List.length_range s, List.nodup_range s, ?_⟩
    intro i hi
    exact lt_of_lt_of_le (List.mem_range.mp hi) hs
  exact (C6_interest_points_batch (fun _ _ s => List.range s) 2 0 []
    [((0 : Int), (0 : Int))] [((1 : Int), (0 : Int))] [] (by decide) (by decide)
    (by decide) hch).2 (by decide) (by decide) (by decide)

/-- The coordinate bounds `[0,W)×[0,H)` of spec section 3. -/
def inGridRange (W H : Nat) (c : Coord) : Prop :=
  0 ≤ c.1 ∧ c.1 < (W : Int) ∧ 0 ≤ c.2 ∧ c.2 < (H : Int)

theorem mem_grid_inRange (W H : Nat) (c : Coord) (h : c ∈ coordsGrid W H) :
    inGridRange W H c := by
  obtain ⟨a, b⟩ := c
  exact (mem_coordsGrid W H a b).mp h

/-- C9: at every resample event of each recognized strategy the drawn
batch has exactly `batch_size` coordinates, all within `[0,W)×[0,H)`
(coordinates of POI are in range by the detector contract; `not_POI` and
the interest-region list are sublists of the grid, as constructed by
`estimate_pose`); under the `random` strategy the batch additionally has
no duplicate coordinates. -/
theorem C9_batch_size_and_range (choice : Nat → Nat → Nat → List Nat)
    (W H bs k : Nat) (POIl not_POIl iRegions : List Coord)
    (hch : ChoiceContract choice)
    (hPOIrange : ∀ c ∈ POIl, inGridRange W H c)
    (hnp : ∀ c ∈ not_POIl, c ∈ coordsGrid W H)
    (hir : ∀ c ∈ iRegions, c ∈ coordsGrid W H) :
    (bs ≤ W * H →
      ∃ b, drawBatch choice "random" bs k (coordsGrid W H) POIl not_POIl iRegions = .ok b
        ∧ b.length = bs ∧ (∀ c ∈ b, inGridRange W H c) ∧ b.Nodup)
    ∧ (bs ≤ POIl.length →
      ∃ b, drawBatch choice "interest_points" bs k (coordsGrid W H) POIl not_POIl iRegions = .ok b
        ∧ b.length = bs ∧ (∀ c ∈ b, inGridRange W H c))
    ∧ (POIl.length < bs → POIl ≠ [] → bs - POIl.length ≤ not_POIl.length →
      ∃ b, drawBatch choice "interest_points" bs k (coordsGrid W H) POIl not_POIl iRegions = .ok b
        ∧ b.length = bs ∧ (∀ c ∈ b, inGridRange W H c))
    ∧ (bs ≤ iRegions.length →
      ∃ b, drawBatch choice "interest_regions" bs k (coordsGrid W H) POIl not_POIl iRegions = .ok b
        ∧ b.length = bs ∧ (∀ c ∈ b, inGridRange W H c)) := by
  refine ⟨?_, ?_, ?_, ?_⟩
  · intro hbs
    have hbs' : bs ≤ (coordsGrid W H).length := by rw [length_coordsGrid, Nat.mul_comm]; exact hbs
    obtain ⟨hlen, hnodup, hbound⟩ := hch k (coordsGrid W H).length bs hbs'
    refine ⟨_, drawBatch_random_eq choice bs k (coordsGrid W H) POIl not_POIl iRegions hbs', ?_, ?_, ?_⟩
    · rw [List.length_map, hlen]
    · intro c hc
      exact mem_grid_inRange W H c (pick_mem _ _ cZero hbound c hc)
    · exact pick_nodup _ (nodup_coordsGrid W H) _ hnodup hbound cZero
  · intro hge
    obtain ⟨hlen, hnodup, hbound⟩ := hch k POIl.length bs hge
    refine ⟨_, drawBatch_ip_ge_eq choice bs k (coordsGrid W H) POIl not_POIl iRegions hge, ?_, ?_⟩
    · rw [List.length_map, hlen]
    · intro c hc
      exact hPOIrange c (pick_mem POIl _ cZero hbound c hc)
  · intro hlt hne hle
    obtain ⟨hlen, hnodup, hbound⟩ := hch k not_POIl.length (bs - POIl.length) hle
    refine ⟨_, drawBatch_ip_lt_eq choice bs k (coordsGrid W H) POIl not_POIl iRegions hlt hne hle, ?_, ?_⟩
    · rw [List.length_append, List.length_map, hlen]
      omega
    · intro c hc
      rcases List.mem_append.mp hc with hcp | hcn
      · exact hPOIrange c hcp
      · exact mem_grid_inRange W H c (hnp c (pick_mem not_POIl _ cZero hbound c hcn))
  · intro hge
    obtain ⟨hlen, hnodup, hbound⟩ := hch k iRegions.length bs hge
    refine ⟨_, drawBatch_ir_eq choice bs k (coordsGrid W H) POIl not_POIl iRegions hge, ?_, ?_⟩
    · rw [List.length_map, hlen]
    · intro c hc
      exact mem_grid_inRange W H c (hir c (pick_mem iRegions _ cZero hbound c hc))

theorem C9_witness :
    ∃ b, drawBatch (fun _ _ s => List.range s) "random" 2 0 (coordsGrid 2 2) [] [] [] = .ok b
      ∧ b.length = 2 ∧ (∀ c ∈ b, inGridRange 2 2 c) ∧ b.Nodup := by
  have hch : ChoiceContract (fun _ _ s => List.range s) := by
    intro ev n s hs
    refine ⟨List.length_range s, List.nodup_range s, ?_⟩
    intro i hi
    exact lt_of_lt_of_le (List.mem_range.mp hi) hs
  exact (C9_batch_size_and_range (fun _ _ s => List.range s) 2 2 2 0 [] [] [] hch
    (by intro c hc; cases hc) (by intro c hc; cases hc) (by intro c hc; cases hc)).1 (by omega)

/-- C7: with the seed-determined collaborators (RNG draw lists, torch
parameter initialization, stub renderer) and the configuration fixed,
`estimate_pose` is a pure function of its arguments: two runs on equal
inputs produce identical results, pose included. -/
theorem C7_determinism {σ : Type} (self self' : Estimator) (C C' : Collaborators σ)
    (s0 s0' : σ) (t0 t0' : Twist) (sp sp' : M4) (oi oi' : Image) (op op' : M4)
    (od od' : Coord → Flt)
    (h1 : self = self') (h2 : C = C') (h3 : s0 = s0') (h4 : t0 = t0') (h5 : sp = sp')
    (h6 : oi = oi') (h7 : op = op') (h8 : od = od') :
    self.estimate_pose C s0 t0 sp oi op od = self'.estimate_pose C' s0' t0' sp' oi' op' od' := by
  subst h1 h2 h3 h4 h5 h6 h7 h8
  rfl

/-- A fixed deterministic collaborator bundle over a 2×2 image: stub
renderer, detector finding nothing, identity colour conversions and
dilation, `np.random.choice` drawing the first indices, inert optimizer. -/
def stubCollab : Collaborators Unit where
  hwf := (2, 2, .fin 1)
  render := fun b _ => (b.map fun _ => fun _ => (0 : Flt),
    (b.map fun _ => (0 : Flt), b.map fun _ => (0 : Flt)))
  noiseFn := fun _ _ img => img
  cvtGray := fun img c => img c 0
  siftDetect := fun _ => []
  rgb2hsv := fun img => img
  hsv2rgb := fun img => img
  dilate := fun _ _ m => m
  choice := fun _ _ s => List.range s
  atan2F := fun _ _ => 0
  sqrtF := fun _ => 0
  sinF := fun _ => 0
  cosF := fun _ => 1
  powF := fun _ _ => 1
  optStep := fun s t _ => (s, t)
  setLr := fun s _ => s

/-- A fixed estimator configuration: one iteration, one-pixel batches,
random sampling, no noise, no brightness shift. -/
def stubEstimator : Estimator where
  iter := 1
  batch_size := 1
  sampling_strategy := "random"
  dil_iter := 3
  kernel_size := 5
  lrate := .fin (1 / 100)
  noise := none
  sigma := .fin (1 / 100)
  amount := .fin (8 / 10)
  delta_brightness := 0

theorem C7_witness :
    stubEstimator.estimate_pose stubCollab () zeroTwist eye4 (fun _ _ => 0) eye4 (fun _ => 0)
      = stubEstimator.estimate_pose stubCollab () zeroTwist eye4 (fun _ _ => 0) eye4 (fun _ => 0) :=
  C7_determinism stubEstimator stubEstimator stubCollab stubCollab () () zeroTwist zeroTwist
    eye4 eye4 (fun _ _ => 0) (fun _ _ => 0) eye4 eye4 (fun _ => 0) (fun _ => 0)
    rfl rfl rfl rfl rfl rfl rfl rfl

/-- C10 counterexample: a call with iteration count 0, the
`interest_regions` strategy and a detector that finds nothing fails with
`IndexError` during pre-loop mask construction — not with the
unbound-variable error the claim asserts for every zero-iteration call. -/
theorem C10_counterexample :
    ({ stubEstimator with iter := 0, sampling_strategy := "interest_regions" } : Estimator).estimate_pose
        stubCollab () zeroTwist eye4 (fun _ _ => 0) eye4 (fun _ => 0)
      = (.error .indexError, none, [])
    ∧ PyError.indexError ≠ PyError.unboundLocalError := by
  exact ⟨rfl, by decide⟩

/-- C10 (amended): for every call with iteration count 0, no pose is
returned and no pose prior is cached; the failure is the unbound-variable
error of line 321 (the loop-local `pose` is never assigned) in every case
except `interest_regions` with an empty POI set, which already fails with
`IndexError` before the loop. -/
theorem C10_zero_iterations {σ : Type} (self : Estimator) (C : Collaborators σ) (s0 : σ)
    (t0 : Twist) (sp : M4) (oi : Image) (op : M4) (od : Coord → Flt)
    (h0 : self.iter = 0) :
    (self.sampling_strategy ≠ "interest_regions" →
      self.estimate_pose C s0 t0 sp oi op od = (.error .unboundLocalError, none, []))
    ∧ (self.sampling_strategy = "interest_regions" → self.poiOf C oi ≠ [] →
      self.estimate_pose C s0 t0 sp oi op od = (.error .unboundLocalError, none, []))
    ∧ (self.sampling_strategy = "interest_regions" → self.poiOf C oi = [] →
      self.estimate_pose C s0 t0 sp oi op od = (.error .indexError, none, []))
    ∧ (self.estimate_pose C s0 t0 sp oi op od).2.1 = none
    ∧ (∀ p prior tr, self.estimate_pose C s0 t0 sp oi op od ≠ (.ok p, prior, tr)) := by
  have hA : self.sampling_strategy ≠ "interest_regions" →
      self.estimate_pose C s0 t0 sp oi op od = (.error .unboundLocalError, none, []) := by
    intro hs
    simp only [Estimator.estimate_pose, interestRegions_of_neg self C oi hs, h0,
      List.range_zero, List.foldlM_nil]
    rfl
  have hB : self.sampling_strategy = "interest_regions" → self.poiOf C oi ≠ [] →
      self.estimate_pose C s0 t0 sp oi op od = (.error .unboundLocalError, none, []) := by
    intro hs hne
    cases hP : self.poiOf C oi with
    | nil => exact absurd hP hne
    | cons a t =>
      obtain ⟨l, hl⟩ := interestRegions_of_cons self C oi hs a t hP
      simp only [Estimator.estimate_pose, hl, h0, List.range_zero, List.foldlM_nil]
      rfl
  have hC : self.sampling_strategy = "interest_regions" → self.poiOf C oi = [] →
      self.estimate_pose C s0 t0 sp oi op od = (.error .indexError, none, []) := by
    intro hs hP
    simp only [Estimator.estimate_pose, interestRegions_of_emptyPOI self C oi hs hP]
  have hall : self.estimate_pose C s0 t0 sp oi op od = (.error .unboundLocalError, none, [])
      ∨ self.estimate_pose C s0 t0 sp oi op od = (.error .indexError, none, []) := by
    by_cases hs : self.sampling_strategy = "interest_regions"
    · by_cases hp : self.poiOf C oi = []
      · exact Or.inr (hC hs hp)
      · exact Or.inl (hB hs hp)
    · exact Or.inl (hA hs)
  refine ⟨hA, hB, hC, ?_, ?_⟩
  · rcases hall with h | h <;> rw [h]
  · intro p prior tr hcontra
    rcases hall with h | h <;> rw [h] at hcontra <;> simp at hcontra

theorem C10_witness :
    ({ stubEstimator with iter := 0 } : Estimator).estimate_pose stubCollab () zeroTwist eye4
        (fun _ _ => 0) eye4 (fun _ => 0) = (.error .unboundLocalError, none, []) :=
  (C10_zero_iterations ({ stubEstimator with iter := 0 }) stubCollab () zeroTwist eye4
    (fun _ _ => 0) eye4 (fun _ => 0) rfl).1 (by decide)

theorem loopBody_unknown {σ : Type} (self : Estimator) (C : Collaborators σ) (sp : M4)
    (noised : Image) (od : Coord → Flt) (coords POIl not_POIl iRegions : List Coord)
    (refs : Flt × Flt × Flt × Flt) (st : LoopState σ) (k : Nat)
    (hs1 : self.sampling_strategy ≠ "random")
    (hs2 : self.sampling_strategy ≠ "interest_points")
    (hs3 : self.sampling_strategy ≠ "interest_regions")
    (hk : k % N = 0) :
    loopBody self C sp noised od coords POIl not_POIl iRegions refs st k
      = .error (.silentNone, none, st.trace ++ [.unknownStrategyMsg]) := by
  unfold loopBody
  rw [if_pos hk, drawBatch_unknown_eq C.choice self.sampling_strategy self.batch_size k
    coords POIl not_POIl iRegions hs1 hs2 hs3]

/-- C1 counterexample: with the unrecognized strategy string `unknown` and
one iteration, the call completes (noise preprocessing and all) and
silently returns `None` after printing the message — no exception of any
kind is raised, so in particular no configuration error is raised before
the loop. -/
theorem C1_counterexample :
    ({ stubEstimator with sampling_strategy := "unknown" } : Estimator).estimate_pose
        stubCollab () zeroTwist eye4 (fun _ _ => 0) eye4 (fun _ => 0)
      = (.silentNone, none, [.unknownStrategyMsg])
    ∧ ∀ (e : PyError) (prior : Option M4) (tr : List LogEntry),
        ({ stubEstimator with sampling_strategy := "unknown" } : Estimator).estimate_pose
          stubCollab () zeroTwist eye4 (fun _ _ => 0) eye4 (fun _ => 0) ≠ (.error e, prior, tr) := by
  have h : ({ stubEstimator with sampling_strategy := "unknown" } : Estimator).estimate_pose
      stubCollab () zeroTwist eye4 (fun _ _ => 0) eye4 (fun _ => 0)
      = (.silentNone, none, [.unknownStrategyMsg]) := rfl
  refine ⟨h, ?_⟩
  intro e prior tr hc
  rw [h] at hc
  simp at hc

/-- C1 (amended): for every configuration whose sampling strategy is none
of the three recognized ones and whose iteration count is at least 1, the
call runs all preprocessing, enters the loop, prints
`Unknown sampling strategy` at the first resample, and silently returns
`None` with no pose prior cached; no error is raised (and with iteration
count 0 the call instead fails with the unbound-variable error, see C10). -/
theorem C1_unknown_strategy {σ : Type} (self : Estimator) (C : Collaborators σ) (s0 : σ)
    (t0 : Twist) (sp : M4) (oi : Image) (op : M4) (od : Coord → Flt)
    (hs1 : self.sampling_strategy ≠ "random")
    (hs2 : self.sampling_strategy ≠ "interest_points")
    (hs3 : self.sampling_strategy ≠ "interest_regions")
    (hit : 1 ≤ self.iter) :
    self.estimate_pose C s0 t0 sp oi op od = (.silentNone, none, [.unknownStrategyMsg]) := by
  obtain ⟨m, hm⟩ : ∃ m, self.iter = m + 1 := ⟨self.iter - 1, by omega⟩
  simp only [Estimator.estimate_pose, interestRegions_of_neg self C oi hs3, hm,
    List.range_succ_eq_map, List.foldlM_cons]
  rw [loopBody_unknown self C sp (self.obs_noised C oi) od
    (coordsGrid C.hwf.1 C.hwf.2.1) (self.POI_of C oi) (self.notPOI_of C oi) []
    (refs_of C op) (⟨s0, t0, none, none, []⟩ : LoopState σ) 0 hs1 hs2 hs3 rfl]
  rfl

theorem C1_witness :
    ({ stubEstimator with sampling_strategy := "typo", iter := 2 } : Estimator).estimate_pose
        stubCollab () zeroTwist eye4 (fun _ _ => 0) eye4 (fun _ => 0)
      = (.silentNone, none, [.unknownStrategyMsg]) :=
  C1_unknown_strategy ({ stubEstimator with sampling_strategy := "typo", iter := 2 })
    stubCollab () zeroTwist eye4 (fun _ _ => 0) eye4 (fun _ => 0)
    (by decide) (by decide) (by decide) (by decide)

theorem drawBatch_ip_empty (choice : Nat → Nat → Nat → List Nat) (bs k : Nat)
    (coords not_POIl iRegions : List Coord) (hbs : 1 ≤ bs) :
    drawBatch choice "interest_points" bs k coords [] not_POIl iRegions
      = .error (some .valueError) := by
  unfold drawBatch
  rw [if_neg (by decide), if_pos rfl,
    if_neg (show ¬(([] : List Coord).length ≥ bs) by simp only [List.length_nil]; omega),
    if_pos (show (([] : List Coord)).isEmpty = true from rfl)]

theorem loopBody_drawErr {σ : Type} (self : Estimator) (C : Collaborators σ) (sp : M4)
    (noised : Image) (od : Coord → Flt) (coords POIl not_POIl iRegions : List Coord)
    (refs : Flt × Flt × Flt × Flt) (st : LoopState σ) (k : Nat) (e : PyError)
    (hk : k % N = 0)
    (hdb : drawBatch C.choice self.sampling_strategy self.batch_size k coords POIl not_POIl iRegions
      = .error (some e)) :
    loopBody self C sp noised od coords POIl not_POIl iRegions refs st k
      = .error (.error e, none, st.trace) := by
  unfold loopBody
  rw [if_pos hk, hdb]

/-- C2 counterexample: under `interest_regions` with a detector that finds
nothing, the call fails with `IndexError` inside the array indexing that
builds the interest-region mask (`POI[:,1]` on the 1-dimensional empty POI
array) — no configuration error is raised. -/
theorem C2_counterexample :
    ({ stubEstimator with sampling_strategy := "interest_regions" } : Estimator).estimate_pose
        stubCollab () zeroTwist eye4 (fun _ _ => 0) eye4 (fun _ => 0)
      = (.error .indexError, none, []) := rfl

/-- C2 (amended): when the detector returns an empty POI set, a call under
`interest_regions` fails with `IndexError` at pre-loop mask construction,
and a call under `interest_points` (with positive batch size, at least one
iteration) fails with the broadcast `ValueError` at the first resample;
neither raises a configuration error. -/
theorem C2_empty_poi {σ : Type} (self : Estimator) (C : Collaborators σ) (s0 : σ)
    (t0 : Twist) (sp : M4) (oi : Image) (op : M4) (od : Coord → Flt)
    (hdet : ∀ g, C.siftDetect g = []) :
    (self.sampling_strategy = "interest_regions" →
      self.estimate_pose C s0 t0 sp oi op od = (.error .indexError, none, []))
    ∧ (self.sampling_strategy = "interest_points" → 1 ≤ self.batch_size → 1 ≤ self.iter →
      self.estimate_pose C s0 t0 sp oi op od = (.error .valueError, none, [])) := by
  have hpoi : self.poiOf C oi = [] := by
    unfold Estimator.poiOf find_POI
    rw [hdet]
    rfl
  constructor
  · intro hs
    simp only [Estimator.estimate_pose, interestRegions_of_emptyPOI self C oi hs hpoi]
  · intro hs hbs hit
    have hne : self.sampling_strategy ≠ "interest_regions" := by rw [hs]; decide
    obtain ⟨m, hm⟩ : ∃ m, self.iter = m + 1 := ⟨self.iter - 1, by omega⟩
    simp only [Estimator.estimate_pose, interestRegions_of_neg self C oi hne,
      POI_of_ip self C oi hs, hpoi, hm, List.range_succ_eq_map, List.foldlM_cons]
    rw [loopBody_drawErr self C sp (self.obs_noised C oi) od
      (coordsGrid C.hwf.1 C.hwf.2.1) [] (self.notPOI_of C oi) [] (refs_of C op)
      (⟨s0, t0, none, none, []⟩ : LoopState σ) 0 .valueError rfl
      (by rw [hs]; exact drawBatch_ip_empty C.choice self.batch_size 0 _ _ _ hbs)]
    rfl

theorem C2_witness :
    ({ stubEstimator with sampling_strategy := "interest_points" } : Estimator).estimate_pose
        stubCollab () zeroTwist eye4 (fun _ _ => 0) eye4 (fun _ => 0)
      = (.error .valueError, none, []) :=
  (C2_empty_poi ({ stubEstimator with sampling_strategy := "interest_points" })
    stubCollab () zeroTwist eye4 (fun _ _ => 0) eye4 (fun _ => 0)
    (fun _ => rfl)).2 rfl (by decide) (by decide)

theorem foldlM_ok_of_all {σ ε α : Type} (f : σ → α → Except ε σ) (Q : σ → Prop)
    (hf : ∀ s a, ∃ s', f s a = .ok s' ∧ Q s') :
    ∀ (l : List α) (s : σ), l ≠ [] → ∃ s', l.foldlM f s = .ok s' ∧ Q s' := by
  intro l
  induction l with
  | nil => intro s h; exact absurd rfl h
  | cons a t ih =>
    intro s _
    obtain ⟨s1, hfs, hq⟩ := hf s a
    cases t with
    | nil =>
      refine ⟨s1, ?_, hq⟩
      rw [List.foldlM_cons, hfs]
      rfl
    | cons b u =>
      obtain ⟨s2, hfold, hq2⟩ := ih s1 (by simp)
      refine ⟨s2, ?_, hq2⟩
      rw [List.foldlM_cons, hfs]
      exact hfold

/-- Under the `random` strategy, with a batch size not exceeding the grid,
every loop iteration completes normally (no branch of the body inspects
the loss value, finite or not) and assigns the `pose` local. -/
theorem loopBody_random_ok {σ : Type} (self : Estimator) (C : Collaborators σ) (sp : M4)
    (noised : Image) (od : Coord → Flt) (POIl not_POIl iRegions : List Coord)
    (refs : Flt × Flt × Flt × Flt) (st : LoopState σ) (k : Nat)
    (hs : self.sampling_strategy = "random")
    (hbs : self.batch_size ≤ (coordsGrid C.hwf.1 C.hwf.2.1).length) :
    ∃ st' : LoopState σ,
      loopBody self C sp noised od (coordsGrid C.hwf.1 C.hwf.2.1) POIl not_POIl iRegions refs st k
        = .ok st' ∧ st'.pose.isSome := by
  unfold loopBody
  rw [if_pos (show k % N = 0 by simp [N, Nat.mod_one]), hs,
    drawBatch_random_eq C.choice self.batch_size k (coordsGrid C.hwf.1 C.hwf.2.1)
      POIl not_POIl iRegions hbs]
  exact ⟨_, rfl, rfl⟩

/-- C3 (amended): no branch of the loop inspects the loss for finiteness:
whatever colour, depth and loss values the renderer and optimizer produce
(non-finite ones included), a `random`-strategy call with a satisfiable
batch size and at least one iteration runs all its iterations and returns
the final pose normally; the loop is never aborted and no last-valid-pose
fallback exists. -/
theorem C3_loop_never_aborts {σ : Type} (self : Estimator) (C : Collaborators σ) (s0 : σ)
    (t0 : Twist) (sp : M4) (oi : Image) (op : M4) (od : Coord → Flt)
    (hs : self.sampling_strategy = "random")
    (hbs : self.batch_size ≤ C.hwf.1 * C.hwf.2.1)
    (hit : 1 ≤ self.iter) :
    ∃ p tr, self.estimate_pose C s0 t0 sp oi op od = (.ok p, some p, tr) := by
  have hne : self.sampling_strategy ≠ "interest_regions" := by rw [hs]; decide
  have hbs' : self.batch_size ≤ (coordsGrid C.hwf.1 C.hwf.2.1).length := by
    rw [length_coordsGrid, Nat.mul_comm]
    exact hbs
  have hrange : List.range self.iter ≠ [] := by
    intro h
    rw [List.range_eq_nil] at h
    omega
  obtain ⟨st, hfold, hq⟩ := foldlM_ok_of_all
    (loopBody self C sp (self.obs_noised C oi) od (coordsGrid C.hwf.1 C.hwf.2.1)
      (self.POI_of C oi) (self.notPOI_of C oi) [] (refs_of C op))
    (fun st => st.pose.isSome = true)
    (fun st k => loopBody_random_ok self C sp (self.obs_noised C oi) od
      (self.POI_of C oi) (self.notPOI_of C oi) [] (refs_of C op) st k hs hbs')
    (List.range self.iter) (⟨s0, t0, none, none, []⟩ : LoopState σ) hrange
  obtain ⟨p, hp⟩ := Option.isSome_iff_exists.mp hq
  refine ⟨p, st.trace, ?_⟩
  simp only [Estimator.estimate_pose, interestRegions_of_neg self C oi hne, hfold, hp]

theorem C3_amended_witness :
    ∃ p tr, stubEstimator.estimate_pose stubCollab () zeroTwist eye4 (fun _ _ => 0) eye4
        (fun _ => 0) = (.ok p, some p, tr) :=
  C3_loop_never_aborts stubEstimator stubCollab () zeroTwist eye4 (fun _ _ => 0) eye4
    (fun _ => 0) rfl (by decide) (by decide)

/-- The unit vector along the first translation-generator axis. -/
def e0vec : Fin 3 → Flt := fun i => if i = 0 then 1 else 0

/-- A concrete initial twist: zero rotation generator, unit translation
generator, zero angle. -/
def twC3 : Twist := ⟨fun _ => 0, e0vec, 0⟩

/-- Collaborators whose renderer returns NaN colours (so every photometric
loss is non-finite) and whose optimizer step bumps the twist angle by one. -/
def nanCollab : Collaborators Unit :=
  { stubCollab with
    render := fun b _ => (b.map fun _ => fun _ => Flt.nan,
      (b.map fun _ => (0 : Flt), b.map fun _ => (0 : Flt))),
    optStep := fun s t _ => (s, ⟨t.w, t.v, t.theta + 1⟩) }

/-- The homogeneous matrix translating by one along x. -/
def transX1 : M4 := fun i j =>
  if i = j then 1 else if (i : ℕ) = 0 ∧ (j : ℕ) = 3 then 1 else 0

/-- C3 counterexample: with a renderer producing NaN colours, the loss of
iteration 0 is already NaN (recorded in the trace), yet the two-iteration
call still runs its second iteration and returns that iteration's pose
(the translation by 1 produced by the bumped twist) — it does not abort
and does not return the last pose computed before the non-finite loss,
which was the identity. -/
theorem C3_counterexample :
    ({ stubEstimator with iter := 2 } : Estimator).estimate_pose nanCollab () twC3 eye4
        (fun _ _ => 0) eye4 (fun _ => 0)
      = (.ok transX1, some transX1, [.step 0 Flt.nan (Flt.fin 0) (Flt.fin 0)])
    ∧ camera_forward nanCollab.sinF nanCollab.cosF twC3 eye4 = eye4
    ∧ transX1 ≠ eye4 := by
  have hp1 : camera_forward (fun _ => Flt.fin 0) (fun _ => Flt.fin 1)
      ⟨fun _ => Flt.fin 0, e0vec, Flt.fin 1⟩ eye4 = transX1 := by
    funext i j
    fin_cases i <;> fin_cases j <;>
      simp [camera_forward, vec2ss_matrix, e0vec, madd3, smul3, mmul3, mvec3, eye3,
        mmul4, eye4, transX1,
        show ((0 : Fin 4) : ℕ) = 0 from rfl, show ((1 : Fin 4) : ℕ) = 1 from rfl,
        show ((2 : Fin 4) : ℕ) = 2 from rfl, show ((3 : Fin 4) : ℕ) = 3 from rfl]
  refine ⟨?_, ?_, ?_⟩
  · simp [Estimator.estimate_pose, Estimator.interestRegions_of, Estimator.POI_of,
      Estimator.notPOI_of, refs_of, loopBody, drawBatch, npChoice, mkLog,
      decompPhi, decompTheta, decompPsi, decompTranslation, angular_error,
      Estimator.obs_noised, Estimator.obs_preprocessed, apply_noise, imgDiv255,
      nanCollab, stubCollab, stubEstimator, N, lConst, img2mse, depth2mse, fltMean, np_pi,
      coordsGrid, Flt.lt, twC3, hp1,
      show ¬((3.141592653589793 : ℚ) = 0) by norm_num,
      show ((0 : ℚ) < 300) by norm_num,
      show List.range 2 = [0, 1] from rfl,
      show List.range 1 = [0] from rfl,
      List.foldlM_cons, List.foldlM_nil]
  · funext i j
    fin_cases i <;> fin_cases j <;>
      simp [camera_forward, vec2ss_matrix, twC3, e0vec, madd3, smul3, mmul3, mvec3, eye3,
        mmul4, eye4, nanCollab, stubCollab,
        show ((0 : Fin 4) : ℕ) = 0 from rfl, show ((1 : Fin 4) : ℕ) = 1 from rfl,
        show ((2 : Fin 4) : ℕ) = 2 from rfl, show ((3 : Fin 4) : ℕ) = 3 from rfl]
  · intro h
    have h2 := congrFun (congrFun h 0) 3
    simp [transX1, eye4,
      show ((0 : Fin 4) : ℕ) = 0 from rfl, show ((3 : Fin 4) : ℕ) = 3 from rfl] at h2

/-- C4: when `delta_brightness ≠ 0`, the observed image is divided by 255
a second time (source line 122) after the initial normalization of line
118, so the image converted to HSV — and with it every value the
brightness shift and the later photometric targets see — lies in
`[0, 1/255]` instead of `[0,1]`; in particular, for any negative delta
with `|delta| > 1/255` the clamp of line 125 zeroes the entire value
channel (the value channel of an HSV conversion of an image bounded by
`1/255` is itself bounded by `1/255`, the collaborator contract taken as
a hypothesis). -/
theorem C4_double_normalization {σ : Type} (self : Estimator) (C : Collaborators σ)
    (oi : Image) (d : ℚ) (hδ : self.delta_brightness = .fin d) (hd0 : d ≠ 0)
    (hoi : ∀ c ch, ∃ q, oi c ch = .fin q ∧ 0 ≤ q ∧ q ≤ 255) :
    (self.obs_preprocessed C oi
      = C.hsv2rgb (clampV self.delta_brightness (C.rgb2hsv (imgDiv255 (imgDiv255 oi)))))
    ∧ (∀ c ch, ∃ q, imgDiv255 (imgDiv255 oi) c ch = .fin q ∧ 0 ≤ q ∧ q ≤ 1 / 255)
    ∧ (d < -(1 / 255) →
        (∀ c, ∃ q, (C.rgb2hsv (imgDiv255 (imgDiv255 oi))) c 2 = .fin q ∧ 0 ≤ q ∧ q ≤ 1 / 255) →
        ∀ c, clampV self.delta_brightness (C.rgb2hsv (imgDiv255 (imgDiv255 oi))) c 2 = .fin 0) := by
  refine ⟨?_, ?_, ?_⟩
  · unfold Estimator.obs_preprocessed apply_brightness
    rw [if_pos (show self.delta_brightness ≠ 0 by rw [hδ]; simp [hd0])]
  · intro c ch
    obtain ⟨q, hq, hq0, hq1⟩ := hoi c ch
    refine ⟨q / 255 / 255, ?_, by positivity, ?_⟩
    · simp [imgDiv255, hq]
    · rw [div_div, div_le_div_iff₀ (by norm_num) (by norm_num)]
      linarith
  · intro hdlt hV c
    obtain ⟨q, hq, hq0, hq1⟩ := hV c
    have hlt0 : Flt.lt self.delta_brightness (Flt.fin 0) = true := by
      rw [hδ]
      simp [Flt.lt]
      linarith
    have hltq : Flt.lt (Flt.fin q) (Flt.abs self.delta_brightness) = true := by
      rw [hδ]
      simp [Flt.lt, Flt.abs]
      rw [abs_of_neg (by linarith)]
      linarith
    simp [clampV, hq, hlt0, hltq]

theorem C4_witness :
    clampV (Flt.fin (-(1 / 100)))
      (stubCollab.rgb2hsv (imgDiv255 (imgDiv255 (fun _ _ => Flt.fin 255))))
      ((0 : Int), (0 : Int)) 2 = .fin 0 := by
  have h := (C4_double_normalization
    ({ stubEstimator with delta_brightness := Flt.fin (-(1 / 100)) }) stubCollab
    (fun _ _ => Flt.fin 255) (-(1 / 100)) rfl (by norm_num)
    (fun c ch => ⟨255, rfl, by norm_num, by norm_num⟩)).2.2
    (by norm_num)
    (fun c => ⟨1 / 255, by simp [stubCollab, imgDiv255], by norm_num, by norm_num⟩)
    ((0 : Int), (0 : Int))
  simpa using h

end Nerf
